import Mathlib

/-!
Verification development for the SPI accelerometer simulator core
(`periphs/accel.py`): a shallow embedding of the register file
(`RegisterArray`), the soft-reset logic, the SPI protocol FSM, the
sample-load FSM (`ffsm`), the STATUS update logic and the ODR controller
of `AccelCore`, together with theorems settling the specified properties.

Modelling conventions: every 8-bit hardware signal is a `Nat` (written
values are truncated with `% 256` where the signal width truncates);
one synchronous tick is one application of a step function; all
right-hand sides of a step read the start-of-tick state, as migen
synchronous assignment does.
-/

namespace Accel

/-- The register set of `RegisterArray` (accel.py lines 83-117), one field
per `Signal(8)`, with the power-on reset value recorded in `resetRegs`. -/
structure Regs where
  DEVID_AD       : Nat
  DEVID_MST      : Nat
  PARTID         : Nat
  REVID          : Nat
  XDATA          : Nat
  YDATA          : Nat
  ZDATA          : Nat
  STATUS         : Nat
  FIFO_ENTRIES_L : Nat
  FIFO_ENTRIES_H : Nat
  XDATA_L        : Nat
  XDATA_H        : Nat
  YDATA_L        : Nat
  YDATA_H        : Nat
  ZDATA_L        : Nat
  ZDATA_H        : Nat
  TEMP_L         : Nat
  TEMP_H         : Nat
  SOFT_RESET     : Nat
  THRESH_ACT_L   : Nat
  THRESH_ACT_H   : Nat
  TIME_ACT       : Nat
  THRESH_INACT_L : Nat
  THRESH_INACT_H : Nat
  TIME_INACT_L   : Nat
  TIME_INACT_H   : Nat
  ACT_INACT_CTL  : Nat
  FIFO_CONTROL   : Nat
  FIFO_SAMPLES   : Nat
  INTMAP1        : Nat
  INTMAP2        : Nat
  FILTER_CTL     : Nat
  POWER_CTL      : Nat
  deriving Repr, DecidableEq

/-- Power-on (reset) values of every register, from the `reset=` arguments
of the `Signal` declarations (accel.py lines 83-117). -/
def resetRegs : Regs :=
  { DEVID_AD := 0xAD, DEVID_MST := 0x1D, PARTID := 0xF2, REVID := 0x01
    XDATA := 0, YDATA := 0, ZDATA := 0, STATUS := 0x40
    FIFO_ENTRIES_L := 0, FIFO_ENTRIES_H := 0
    XDATA_L := 0, XDATA_H := 0, YDATA_L := 0, YDATA_H := 0
    ZDATA_L := 0, ZDATA_H := 0, TEMP_L := 0, TEMP_H := 0
    SOFT_RESET := 0
    THRESH_ACT_L := 0, THRESH_ACT_H := 0, TIME_ACT := 0
    THRESH_INACT_L := 0, THRESH_INACT_H := 0
    TIME_INACT_L := 0, TIME_INACT_H := 0
    ACT_INACT_CTL := 0, FIFO_CONTROL := 0, FIFO_SAMPLES := 0x80
    INTMAP1 := 0, INTMAP2 := 0, FILTER_CTL := 0x13, POWER_CTL := 0 }

/-- The read `Case` of `RegisterArray` (accel.py lines 121-160): the value
latched into `dr` on a read strobe at address `addr`; unmapped addresses
(and the write-only SOFT_RESET slot 0x1F) hit the `default` arm and give 0. -/
def readReg (s : Regs) (addr : Nat) : Nat :=
  if addr = 0 then s.DEVID_AD
  else if addr = 1 then s.DEVID_MST
  else if addr = 2 then s.PARTID
  else if addr = 3 then s.REVID
  else if addr = 8 then s.XDATA
  else if addr = 9 then s.YDATA
  else if addr = 10 then s.ZDATA
  else if addr = 11 then s.STATUS
  else if addr = 12 then s.FIFO_ENTRIES_L
  else if addr = 13 then s.FIFO_ENTRIES_H
  else if addr = 14 then s.XDATA_L
  else if addr = 15 then s.XDATA_H
  else if addr = 16 then s.YDATA_L
  else if addr = 17 then s.YDATA_H
  else if addr = 18 then s.ZDATA_L
  else if addr = 19 then s.ZDATA_H
  else if addr = 20 then s.TEMP_L
  else if addr = 21 then s.TEMP_H
  else if addr = 32 then s.THRESH_ACT_L
  else if addr = 33 then s.THRESH_ACT_H
  else if addr = 34 then s.TIME_ACT
  else if addr = 35 then s.THRESH_INACT_L
  else if addr = 36 then s.THRESH_INACT_H
  else if addr = 37 then s.TIME_INACT_L
  else if addr = 38 then s.TIME_INACT_H
  else if addr = 39 then s.ACT_INACT_CTL
  else if addr = 40 then s.FIFO_CONTROL
  else if addr = 41 then s.FIFO_SAMPLES
  else if addr = 42 then s.INTMAP1
  else if addr = 43 then s.INTMAP2
  else if addr = 44 then s.FILTER_CTL
  else if addr = 45 then s.POWER_CTL
  else 0

/-- The write `Case` of `RegisterArray` (accel.py lines 161-195): on a write
strobe only the write-only SOFT_RESET slot (0x1F) and the read/write
configuration slots (0x20-0x2D) accept the byte; every other address — the
read-only identity slots, the internally-writable status/data slots (whose
write arms are commented out in the source) and unmapped addresses — has no
case arm, so the store is unchanged.  The stored byte is the 8-bit
truncation of `v`, as `Signal(8)` assignment truncates. -/
def writeReg (s : Regs) (addr : Nat) (v : Nat) : Regs :=
  if addr = 31 then { s with SOFT_RESET := v % 256 }
  else if addr = 32 then { s with THRESH_ACT_L := v % 256 }
  else if addr = 33 then { s with THRESH_ACT_H := v % 256 }
  else if addr = 34 then { s with TIME_ACT := v % 256 }
  else if addr = 35 then { s with THRESH_INACT_L := v % 256 }
  else if addr = 36 then { s with THRESH_INACT_H := v % 256 }
  else if addr = 37 then { s with TIME_INACT_L := v % 256 }
  else if addr = 38 then { s with TIME_INACT_H := v % 256 }
  else if addr = 39 then { s with ACT_INACT_CTL := v % 256 }
  else if addr = 40 then { s with FIFO_CONTROL := v % 256 }
  else if addr = 41 then { s with FIFO_SAMPLES := v % 256 }
  else if addr = 42 then { s with INTMAP1 := v % 256 }
  else if addr = 43 then { s with INTMAP2 := v % 256 }
  else if addr = 44 then { s with FILTER_CTL := v % 256 }
  else if addr = 45 then { s with POWER_CTL := v % 256 }
  else s

/-- Addresses enumerated in the register map of `RegisterArray`:
identity 0x00-0x03, status/data 0x08-0x15, SOFT_RESET 0x1F and the
configuration block 0x20-0x2D. -/
def mappedAddr (a : Nat) : Prop :=
  a ≤ 3 ∨ (8 ≤ a ∧ a ≤ 21) ∨ (31 ≤ a ∧ a ≤ 45)

instance (a : Nat) : Decidable (mappedAddr a) := by
  unfold mappedAddr; infer_instance

/-! ### Soft-reset logic

`AccelCore` wraps the register array in a `ResetInserter` and drives its
`reset` input from a registered comparison (accel.py lines 500-506):
`reg.reset` becomes 1 one tick after SOFT_RESET holds 0x52, and while
`reg.reset` is 1 the array synchronously reloads every register's power-on
value on the next edge.  A second registered process (lines 572-580)
latches `sys_rst` to 1 while `reg.reset` is 1, requesting a system-wide
reset (which empties the FIFO, located in the `sys` clock domain).  The
step below composes these three processes over one tick, with no host
register access during the sequence. -/

/-- Joint state of the register array, its inserted reset signal and the
system reset request. -/
structure SoftState where
  regs : Regs
  rst : Bool
  sys_rst : Bool
  deriving Repr, DecidableEq

/-- One synchronous tick of the soft-reset logic: the array reloads
`resetRegs` when the (registered) `rst` was asserted; `rst` is the
registered comparison `SOFT_RESET == 0x52`; `sys_rst` latches once `rst`
is seen high. -/
def softStep (s : SoftState) : SoftState :=
  { regs := if s.rst then resetRegs else s.regs
    rst := s.regs.SOFT_RESET = 0x52
    sys_rst := s.sys_rst || s.rst }

/-! ### SPI protocol FSM

The command/register protocol engine (accel.py lines 270-418): a
`ResetInserter`-wrapped migen `FSM` whose reset input is the raw `csn`
pad, so any tick with chip-select deasserted synchronously forces the
state register (and every signal driven by the FSM's `NextValue`, except
the `reset_less` ones: `fifo_entry`, `fifo_byte_sent`,
`fifo_entry_read_cnt`) back to its reset value. -/

/-- The FSM states, named as in the source `fsm.act` blocks. -/
inductive FsmSt where
  | IDLE | CMD_PHASE | CMD_DECODE | ADDR_PHASE | DETERMINE_REG_ACCESS
  | REG_VALUE_SHIFTIN | REG_WRITE_STROBE | REG_WRITE_VALUE | REG_WRITE_NEXT
  | LOAD_SHIFT_OUT_DATA | LOAD_TX_BUF | SHIFTING_OUT | SHIFT_OUT_DONE
  | READ_FIFO | READ_FIFO_ENTRY_STROBE | READ_FIFO_ENTRY
  | PREPARE_SHIFT_BYTE_OUT | SHIFT_BYTE_OUT
  deriving Repr, DecidableEq

/-- Registers driven by the protocol FSM's `NextValue` assignments.
`bus_addr` is a `Signal(8)` (increments wrap mod 256), `fifo_byte_sent`
a `Signal(3)` (mod 8), `fifo_entry_read_cnt` an 8-bit counter
(`Signal(max=170)`, mod 256), `fifo_entry` the captured 48-bit word. -/
structure Fsm where
  st : FsmSt
  tx_buf : Nat
  str_cmd : Nat
  str_addr : Nat
  bus_addr : Nat
  bus_dw : Nat
  bus_w : Bool
  bus_r : Bool
  fifo_re : Bool
  fifo_entry : Nat
  fifo_byte_sent : Nat
  fifo_entry_read_cnt : Nat
  deriving Repr, DecidableEq

/-- Per-tick inputs of the protocol FSM: the raw chip-select pad (also the
FSM's reset), the chip-select rising-edge pulse, the byte-received pulse
`rxc` with the received byte `rxd`, the register-file read data `bus_dr`,
and the FIFO's `readable`/`dout` outputs. -/
structure FsmIn where
  csn : Bool
  csn_r : Bool
  rxc : Bool
  rxd : Nat
  bus_dr : Nat
  fifo_readable : Bool
  fifo_dout : Nat
  deriving Repr, DecidableEq

/-- Synchronous reset of the FSM (chip-select high): the state register and
all `NextValue`-driven signals return to reset values, except the three
`reset_less` FIFO-tracking signals, which survive. -/
def fsmReset (s : Fsm) : Fsm :=
  { st := .IDLE, tx_buf := 0, str_cmd := 0, str_addr := 0, bus_addr := 0
    bus_dw := 0, bus_w := false, bus_r := false, fifo_re := false
    fifo_entry := s.fifo_entry, fifo_byte_sent := s.fifo_byte_sent
    fifo_entry_read_cnt := s.fifo_entry_read_cnt }

/-- Byte `k` (0-based, low first) of a 48-bit FIFO entry: the slice
`fifo_entry[8*k : 8*k+8]` used in `PREPARE_SHIFT_BYTE_OUT`. -/
def entryByte (e k : Nat) : Nat := e / 2 ^ (8 * k) % 256

/-- One synchronous tick of the protocol FSM, transcribing the `fsm.act`
blocks (accel.py lines 279-418); fields not assigned by the active state
hold their values. -/
def fsmStep (s : Fsm) (i : FsmIn) : Fsm :=
  if i.csn then fsmReset s
  else
    match s.st with
    | .IDLE => { s with tx_buf := 0, st := .CMD_PHASE }
    | .CMD_PHASE =>
        if i.rxc then { s with str_cmd := i.rxd, st := .CMD_DECODE } else s
    | .CMD_DECODE =>
        if s.str_cmd = 0x0A then { s with st := .ADDR_PHASE }
        else if s.str_cmd = 0x0B then { s with st := .ADDR_PHASE }
        else if s.str_cmd = 0x0D then { s with st := .READ_FIFO }
        else { s with st := .IDLE }
    | .ADDR_PHASE =>
        if i.rxc then { s with str_addr := i.rxd, st := .DETERMINE_REG_ACCESS } else s
    | .DETERMINE_REG_ACCESS =>
        if s.str_cmd = 0x0A then { s with st := .REG_VALUE_SHIFTIN }
        else if s.str_cmd = 0x0B then
          { s with bus_addr := s.str_addr, bus_r := true, st := .LOAD_SHIFT_OUT_DATA }
        else { s with st := .IDLE }
    | .REG_VALUE_SHIFTIN =>
        if i.rxc then
          { s with bus_addr := s.str_addr, bus_dw := i.rxd, bus_w := true
                   st := .REG_WRITE_STROBE }
        else s
    | .REG_WRITE_STROBE => { s with st := .REG_WRITE_VALUE }
    | .REG_WRITE_VALUE => { s with bus_w := false, st := .REG_WRITE_NEXT }
    | .REG_WRITE_NEXT =>
        if i.csn_r then { s with st := .IDLE }
        else if i.rxc then
          { s with bus_addr := (s.bus_addr + 1) % 256, bus_dw := i.rxd
                   bus_w := true, st := .REG_WRITE_STROBE }
        else s
    | .LOAD_SHIFT_OUT_DATA => { s with st := .LOAD_TX_BUF }
    | .LOAD_TX_BUF => { s with tx_buf := i.bus_dr, bus_r := false, st := .SHIFTING_OUT }
    | .SHIFTING_OUT => if i.rxc then { s with st := .SHIFT_OUT_DONE } else s
    | .SHIFT_OUT_DONE =>
        if i.csn_r then { s with st := .IDLE }
        else if s.bus_addr < 0x2D then
          { s with bus_addr := (s.bus_addr + 1) % 256, bus_r := true
                   st := .LOAD_SHIFT_OUT_DATA }
        else { s with st := .IDLE }
    | .READ_FIFO =>
        if s.fifo_byte_sent = 0 then
          if i.fifo_readable then
            { s with fifo_re := true, st := .READ_FIFO_ENTRY_STROBE }
          else s
        else { s with st := .PREPARE_SHIFT_BYTE_OUT }
    | .READ_FIFO_ENTRY_STROBE => { s with fifo_re := false, st := .READ_FIFO_ENTRY }
    | .READ_FIFO_ENTRY =>
        { s with fifo_entry_read_cnt := (s.fifo_entry_read_cnt + 1) % 256
                 fifo_byte_sent := 1, fifo_entry := i.fifo_dout
                 st := .PREPARE_SHIFT_BYTE_OUT }
    | .PREPARE_SHIFT_BYTE_OUT =>
        if s.fifo_byte_sent = 1 then
          { s with tx_buf := entryByte s.fifo_entry 0, st := .SHIFT_BYTE_OUT }
        else if s.fifo_byte_sent = 2 then
          { s with tx_buf := entryByte s.fifo_entry 1, st := .SHIFT_BYTE_OUT }
        else if s.fifo_byte_sent = 3 then
          { s with tx_buf := entryByte s.fifo_entry 2, st := .SHIFT_BYTE_OUT }
        else if s.fifo_byte_sent = 4 then
          { s with tx_buf := entryByte s.fifo_entry 3, st := .SHIFT_BYTE_OUT }
        else if s.fifo_byte_sent = 5 then
          { s with tx_buf := entryByte s.fifo_entry 4, st := .SHIFT_BYTE_OUT }
        else if s.fifo_byte_sent = 6 then
          { s with tx_buf := entryByte s.fifo_entry 5, st := .SHIFT_BYTE_OUT }
        else if 7 ≤ s.fifo_byte_sent then
          { s with fifo_byte_sent := 0, st := .READ_FIFO }
        else s
    | .SHIFT_BYTE_OUT =>
        if i.rxc then
          { s with fifo_byte_sent := (s.fifo_byte_sent + 1) % 8
                   st := .PREPARE_SHIFT_BYTE_OUT }
        else s

/-! ### Sample FIFO and sample-load FSM -/

/-- FIFO capacity: `FIFO_DEPTH = 170` (accel.py line 214). -/
def FIFO_DEPTH : Nat := 170

/-- Packing of one sample into a 48-bit FIFO word, as in the `ffsm` `IDLE`
state (accel.py lines 605-607): `din[0:16] = dx`, `din[16:32] = dy`,
`din[32:48] = dz`, each axis value truncated to its 16-bit slice. -/
def pack48 (dx dy dz : Nat) : Nat :=
  dx % 65536 + 65536 * (dy % 65536) + 4294967296 * (dz % 65536)

/-- 16-bit two's-complement encoding of a signed axis value. -/
def toU16 (z : Int) : Nat := (z % 65536).toNat

/-- Signed interpretation of a 16-bit word. -/
def fromU16 (n : Nat) : Int := if n < 32768 then (n : Int) else (n : Int) - 65536

/-- Modelled from the spec: the `SyncFIFOBuffered(width=48, depth=170)`
queue instantiated by `AccelCore` comes from the external migen library,
not from this repository.  Per the spec's data model it is an ordered
queue of 48-bit entries with fixed capacity 170; `level` always equals the
count of buffered-but-unread entries (0..170, 170 meaning full including
the synchronous buffering stage), a push past capacity fails silently, and
`writable`/`readable` flag space/data availability. -/
structure Fifo where
  q : List Nat
  deriving Repr, DecidableEq

def Fifo.level (f : Fifo) : Nat := f.q.length

def Fifo.writable (f : Fifo) : Bool := f.level < FIFO_DEPTH

def Fifo.readable (f : Fifo) : Bool := f.q ≠ []

/-- Push with silent drop when full (spec: push fails silently past
capacity), matching a migen FIFO ignoring `we` while not `writable`. -/
def Fifo.push (f : Fifo) (x : Nat) : Fifo :=
  if f.writable then ⟨f.q ++ [x]⟩ else f

/-! ### Sample-load FSM (`ffsm`)

Copies a host-injected 3-axis sample into the FIFO on each rising edge of
the `soc2ip_we` strobe (accel.py lines 601-626). -/

/-- The `ffsm` states. -/
inductive FfsmSt where
  | IDLE | FIFO_WRITE_STROBE | FIFO_WRITE
  deriving Repr, DecidableEq

/-- State of the sample-load engine together with the FIFO it feeds:
the `soc2ip_done` CSR status flag and the registered `fifo.we`/`fifo.din`
signals driven by `NextValue`. -/
structure FfsmState where
  st : FfsmSt
  done : Bool
  fifo_we : Bool
  fifo_din : Nat
  fifo : Fifo
  deriving Repr, DecidableEq

/-- Per-tick inputs of the sample-load engine: the `soc2ip_we` rising-edge
pulse, the stream-mode condition `FIFO_CONTROL[0:2] == 0x02`, and the
three 16-bit axis CSR values. -/
structure FfsmIn where
  we_r : Bool
  stream : Bool
  dx : Nat
  dy : Nat
  dz : Nat
  deriving Repr, DecidableEq

/-- One synchronous tick of `ffsm` plus the FIFO: the FIFO consumes the
registered `we` strobe at the tick edge (enqueueing the registered `din`),
and the FSM advances per the `ffsm.act` blocks.  In `IDLE` on a strobe
edge the `done` flag is cleared unconditionally; the sample is staged when
in stream mode (always) or when the FIFO is writable (latest-saved mode),
and skipped otherwise. -/
def ffsmStep (s : FfsmState) (i : FfsmIn) : FfsmState :=
  let fifo1 := if s.fifo_we then s.fifo.push s.fifo_din else s.fifo
  match s.st with
  | .IDLE =>
      if i.we_r then
        if i.stream then
          { st := .FIFO_WRITE_STROBE, done := false, fifo_we := true
            fifo_din := pack48 i.dx i.dy i.dz, fifo := fifo1 }
        else if s.fifo.writable then
          { st := .FIFO_WRITE_STROBE, done := false, fifo_we := true
            fifo_din := pack48 i.dx i.dy i.dz, fifo := fifo1 }
        else
          { s with done := false, fifo := fifo1 }
      else { s with fifo := fifo1 }
  | .FIFO_WRITE_STROBE => { s with st := .FIFO_WRITE, fifo_we := false, fifo := fifo1 }
  | .FIFO_WRITE => { s with st := .IDLE, done := true, fifo := fifo1 }

/-- Initial state of the sample-load engine: FSM idle, `done` reset to 0,
no pending strobe, empty FIFO. -/
def ffsmInit : FfsmState :=
  { st := .IDLE, done := false, fifo_we := false, fifo_din := 0, fifo := ⟨[]⟩ }

/-- Injection of one sample from the host: a one-tick `soc2ip_we` rising
edge followed by two quiescent ticks, enough for the
`IDLE → FIFO_WRITE_STROBE → FIFO_WRITE → IDLE` sequence to complete. -/
def injectSample (s : FfsmState) (stream : Bool) (dx dy dz : Nat) : FfsmState :=
  let idle : FfsmIn := ⟨false, stream, dx, dy, dz⟩
  ffsmStep (ffsmStep (ffsmStep s ⟨true, stream, dx, dy, dz⟩ ) idle) idle

/-- Injection of `n` identical samples. -/
def injectN (s : FfsmState) (stream : Bool) (dx dy dz : Nat) : Nat → FfsmState
  | 0 => s
  | n + 1 => injectSample (injectN s stream dx dy dz n) stream dx dy dz

/-! ### STATUS update and watermark logic

The registered STATUS update of `AccelCore` (accel.py lines 508-525),
written per assigned bit: bit 3 (overrun) tracks `fifo.level >= 170`;
bit 2 (watermark) is set when `fifo_axis_level = 3*fifo.level` reaches the
`fifo_samples` threshold (`FIFO_SAMPLES` extended by the `FIFO_CONTROL`
AH bit, lines 492-498) and cleared — by the later statement in the same
sync block, which overrides the set when both fire — once
`3*fifo_entry_read_cnt` reaches the threshold, which also zeroes the read
counter; bits 1 and 0 track FIFO non-emptiness.  The read counter's
increment pulse comes from the protocol FSM's `READ_FIFO_ENTRY` state and,
being emitted by a submodule fragment, lands after this block's reset of
the counter. -/

/-- The STATUS bits assigned by the update block, plus the FIFO-entry read
counter it clears. -/
structure StatusSt where
  overrun : Bool
  watermark : Bool
  fifo_ready : Bool
  data_ready : Bool
  read_cnt : Nat
  deriving Repr, DecidableEq

/-- Per-tick inputs of the STATUS update: the FIFO fill level, the
composed 9-bit `fifo_samples` threshold, and the protocol FSM's
entry-read increment pulse. -/
structure StatusIn where
  fifo_level : Nat
  fifo_samples : Nat
  inc : Bool
  deriving Repr, DecidableEq

/-- One synchronous tick of the STATUS update block. -/
def statusStep (s : StatusSt) (i : StatusIn) : StatusSt :=
  let wm1 := if 3 * i.fifo_level ≥ i.fifo_samples then true else s.watermark
  let wm2 := if 3 * s.read_cnt ≥ i.fifo_samples then false else wm1
  let rc1 := if 3 * s.read_cnt ≥ i.fifo_samples then 0 else s.read_cnt
  let rc2 := if i.inc then (s.read_cnt + 1) % 256 else rc1
  { overrun := FIFO_DEPTH ≤ i.fifo_level
    watermark := wm2
    fifo_ready := 1 ≤ i.fifo_level
    data_ready := 1 ≤ i.fifo_level
    read_cnt := rc2 }

/-! ### ODR controller

`ODRController` (accel.py lines 629-684), instantiated with
`fbase = 400` (line 528) and the platform clock `freq`. -/

/-- The combinational `Case` on the 3-bit `odr` selector (lines 644-653)
with `fbase = 400`: `cpt = int(400/(12.5*2^odr)) - 1` for `odr = 0..4`,
and 0 in the default arm. -/
def cptOf (odr : Nat) : Nat :=
  match odr with
  | 0 => 31
  | 1 => 15
  | 2 => 7
  | 3 => 3
  | 4 => 1
  | _ => 0

/-- Internal registers of the ODR controller's programmable divider. -/
structure OdrSt where
  prescaler : Nat
  cnt : Nat
  fout : Bool
  deriving Repr, DecidableEq

/-- One synchronous tick of the divider (lines 656-674), for system clock
`freq`: while enabled, the prescaler counts to `freq/400 - 1`; on each
prescaler wrap the output toggles either every time (`odr >= 5`, full
base rate) or once per `cptOf odr + 1` wraps; while disabled, the output
is forced low and neither counter is assigned. -/
def odrStep (freq : Nat) (s : OdrSt) (ena : Bool) (odr : Nat) : OdrSt :=
  if ena then
    if s.prescaler = freq / 400 - 1 then
      if 5 ≤ odr then { s with prescaler := 0, fout := !s.fout }
      else if s.cnt = cptOf odr then { prescaler := 0, cnt := 0, fout := !s.fout }
      else { s with prescaler := 0, cnt := s.cnt + 1 }
    else { s with prescaler := s.prescaler + 1 }
  else { s with fout := false }

/-! ## Theorems -/

/-- C5: for every read/write configuration address `a` (0x20-0x2D) and
every byte value `v`, writing `v` to `a` and then reading `a` returns `v`;
host writes to the read-only identity slots (0x00-0x03) and the
internally-writable status/data slots (0x08-0x15) leave the store
untouched, and the write-only SOFT_RESET slot (0x1F) is excluded from the
read path, so a value written there is never observable via a host read. -/
theorem register_echo (s : Regs) (a v : Nat) (hv : v < 256) :
    ((0x20 ≤ a ∧ a ≤ 0x2D) → readReg (writeReg s a v) a = v) ∧
    ((a ≤ 3 ∨ (8 ≤ a ∧ a ≤ 21)) → writeReg s a v = s) ∧
    readReg (writeReg s 0x1F v) 0x1F = 0 := by
  refine ⟨?_, ?_, ?_⟩
  · rintro ⟨h1, h2⟩
    interval_cases a <;> exact Nat.mod_eq_of_lt hv
  · rintro (h | ⟨h1, h2⟩)
    · interval_cases a <;> rfl
    · interval_cases a <;> rfl
  · rfl

/-- Witness for `register_echo` at `a = 0x20`, `v = 0x10` (the spec's own
scenario: write 0x10 to 0x20, read 0x20 back). -/
theorem register_echo_witness :
    (0x10 : Nat) < 256 ∧ readReg (writeReg resetRegs 0x20 0x10) 0x20 = 0x10 :=
  ⟨by decide, (register_echo resetRegs 0x20 0x10 (by decide)).1 (by decide)⟩

/-- C9: every register address not enumerated in the register map reads as
0 (the read `Case` default) and accepts a write silently with no effect on
any stored register (no write `Case` arm). -/
theorem unmapped_addr_noop (s : Regs) (a v : Nat) (ha : a < 256)
    (h : ¬ mappedAddr a) :
    readReg s a = 0 ∧ writeReg s a v = s := by
  unfold mappedAddr at h
  constructor
  · unfold readReg
    rw [if_neg (show ¬a = 0 by omega), if_neg (show ¬a = 1 by omega),
      if_neg (show ¬a = 2 by omega), if_neg (show ¬a = 3 by omega),
      if_neg (show ¬a = 8 by omega), if_neg (show ¬a = 9 by omega),
      if_neg (show ¬a = 10 by omega), if_neg (show ¬a = 11 by omega),
      if_neg (show ¬a = 12 by omega), if_neg (show ¬a = 13 by omega),
      if_neg (show ¬a = 14 by omega), if_neg (show ¬a = 15 by omega),
      if_neg (show ¬a = 16 by omega), if_neg (show ¬a = 17 by omega),
      if_neg (show ¬a = 18 by omega), if_neg (show ¬a = 19 by omega),
      if_neg (show ¬a = 20 by omega), if_neg (show ¬a = 21 by omega),
      if_neg (show ¬a = 32 by omega), if_neg (show ¬a = 33 by omega),
      if_neg (show ¬a = 34 by omega), if_neg (show ¬a = 35 by omega),
      if_neg (show ¬a = 36 by omega), if_neg (show ¬a = 37 by omega),
      if_neg (show ¬a = 38 by omega), if_neg (show ¬a = 39 by omega),
      if_neg (show ¬a = 40 by omega), if_neg (show ¬a = 41 by omega),
      if_neg (show ¬a = 42 by omega), if_neg (show ¬a = 43 by omega),
      if_neg (show ¬a = 44 by omega), if_neg (show ¬a = 45 by omega)]
  · unfold writeReg
    rw [if_neg (show ¬a = 31 by omega), if_neg (show ¬a = 32 by omega),
      if_neg (show ¬a = 33 by omega), if_neg (show ¬a = 34 by omega),
      if_neg (show ¬a = 35 by omega), if_neg (show ¬a = 36 by omega),
      if_neg (show ¬a = 37 by omega), if_neg (show ¬a = 38 by omega),
      if_neg (show ¬a = 39 by omega), if_neg (show ¬a = 40 by omega),
      if_neg (show ¬a = 41 by omega), if_neg (show ¬a = 42 by omega),
      if_neg (show ¬a = 43 by omega), if_neg (show ¬a = 44 by omega),
      if_neg (show ¬a = 45 by omega)]

/-- Witness for `unmapped_addr_noop` at the reserved address 0x04. -/
theorem unmapped_addr_noop_witness :
    readReg resetRegs 0x04 = 0 ∧ writeReg resetRegs 0x04 0xFF = resetRegs :=
  unmapped_addr_noop resetRegs 0x04 0xFF (by decide) (by decide)

/-- C3 counterexample: the internal reset pulse raised by writing 0x52 to
SOFT_RESET is not one cycle long — starting from the power-on store with
0x52 freshly written, `reg.reset` is high on two consecutive ticks (and
low again on the third): the registered comparison still sees
SOFT_RESET = 0x52 on the tick in which the register array is being
reloaded, extending the pulse to two cycles. -/
theorem soft_reset_pulse_cx :
    (softStep ⟨writeReg resetRegs 0x1F 0x52, false, false⟩).rst = true ∧
    (softStep (softStep ⟨writeReg resetRegs 0x1F 0x52, false, false⟩)).rst = true ∧
    (softStep (softStep (softStep ⟨writeReg resetRegs 0x1F 0x52, false, false⟩))).rst
      = false := by
  decide

/-- C3 (amended): writing 0x52 to SOFT_RESET (0x1F) asserts the internal
reset pulse `reg.reset` for two cycles (not one); the pulse restores every
register to its power-on value and raises the system-wide reset request
`sys_rst` (which empties the FIFO, resetting the `sys` clock domain),
and the written 0x52 does not persist: once the pulse ends SOFT_RESET
again holds its power-on value 0.  A write of any byte other than 0x52 to
that address never triggers a reset. -/
theorem soft_reset_behavior (r : Regs) (v : Nat) (hv : v < 256) :
    ((softStep ⟨writeReg r 0x1F 0x52, false, false⟩).rst = true ∧
     (softStep (softStep ⟨writeReg r 0x1F 0x52, false, false⟩)).rst = true ∧
     (softStep^[3] ⟨writeReg r 0x1F 0x52, false, false⟩).rst = false ∧
     (softStep^[3] ⟨writeReg r 0x1F 0x52, false, false⟩).regs = resetRegs ∧
     (softStep^[3] ⟨writeReg r 0x1F 0x52, false, false⟩).regs.SOFT_RESET = 0 ∧
     (softStep (softStep ⟨writeReg r 0x1F 0x52, false, false⟩)).sys_rst = true) ∧
    (v ≠ 0x52 → ∀ n,
      (softStep^[n] ⟨writeReg r 0x1F v, false, false⟩).rst = false ∧
      (softStep^[n] ⟨writeReg r 0x1F v, false, false⟩).sys_rst = false) := by
  constructor
  · refine ⟨rfl, rfl, ?_, ?_, ?_, rfl⟩ <;>
      simp [Function.iterate_succ_apply', softStep, writeReg, resetRegs]
  · intro hne n
    have key : ∀ n, (softStep^[n] ⟨writeReg r 0x1F v, false, false⟩) =
        ⟨writeReg r 0x1F v, false, false⟩ := by
      intro n
      apply Function.iterate_fixed
      have hSR : (writeReg r 0x1F v).SOFT_RESET = v := by
        unfold writeReg
        simp [Nat.mod_eq_of_lt hv]
      simp [softStep, hSR, hne]
    rw [key n]
    exact ⟨by simp [hne], rfl⟩

/-- Witness for `soft_reset_behavior` at the power-on store with the
non-reset byte 0x00. -/
theorem soft_reset_behavior_witness :
    (softStep ⟨writeReg resetRegs 0x1F 0x52, false, false⟩).rst = true ∧
    (softStep^[5] ⟨writeReg resetRegs 0x1F 0x00, false, false⟩).rst = false :=
  ⟨(soft_reset_behavior resetRegs 0x00 (by decide)).1.1,
   ((soft_reset_behavior resetRegs 0x00 (by decide)).2 (by decide) 5).1⟩

/-- C2: after the first received byte is latched, `CMD_DECODE` routes
command 0x0A and 0x0B to the address phase (split into the register-write
path `REG_VALUE_SHIFTIN` and the register-read path `LOAD_SHIFT_OUT_DATA`
by `DETERMINE_REG_ACCESS`), 0x0D to the FIFO-read path, and any other
command byte back to `IDLE` with every other FSM register unchanged —
nothing is loaded for transmission and no error indication exists. -/
theorem cmd_decode_routing (s : Fsm) (i : FsmIn) (hc : i.csn = false) :
    (s.st = .CMD_DECODE →
      (s.str_cmd = 0x0A → fsmStep s i = { s with st := .ADDR_PHASE }) ∧
      (s.str_cmd = 0x0B → fsmStep s i = { s with st := .ADDR_PHASE }) ∧
      (s.str_cmd = 0x0D → fsmStep s i = { s with st := .READ_FIFO }) ∧
      (s.str_cmd ≠ 0x0A → s.str_cmd ≠ 0x0B → s.str_cmd ≠ 0x0D →
        fsmStep s i = { s with st := .IDLE })) ∧
    (s.st = .DETERMINE_REG_ACCESS →
      (s.str_cmd = 0x0A → fsmStep s i = { s with st := .REG_VALUE_SHIFTIN }) ∧
      (s.str_cmd = 0x0B → fsmStep s i =
        { s with bus_addr := s.str_addr, bus_r := true,
                 st := .LOAD_SHIFT_OUT_DATA })) := by
  constructor
  · intro h
    refine ⟨fun h1 => ?_, fun h1 => ?_, fun h1 => ?_, fun h1 h2 h3 => ?_⟩ <;>
      simp [fsmStep, hc, h, h1]
    · simp [h2, h3]
  · intro h
    refine ⟨fun h1 => ?_, fun h1 => ?_⟩ <;>
      simp [fsmStep, hc, h, h1]

/-- Witness for `cmd_decode_routing`: the unrecognized command byte 0x0C
aborts to `IDLE` leaving the rest of the state intact, and 0x0D enters the
FIFO-read path. -/
theorem cmd_decode_routing_witness :
    fsmStep ⟨.CMD_DECODE, 0, 0x0C, 0, 0, 0, false, false, false, 0, 0, 0⟩
        ⟨false, false, false, 0, 0, false, 0⟩ =
      { st := .IDLE, tx_buf := 0, str_cmd := 0x0C, str_addr := 0, bus_addr := 0
        bus_dw := 0, bus_w := false, bus_r := false, fifo_re := false
        fifo_entry := 0, fifo_byte_sent := 0, fifo_entry_read_cnt := 0 } ∧
    fsmStep ⟨.CMD_DECODE, 0, 0x0D, 0, 0, 0, false, false, false, 0, 0, 0⟩
        ⟨false, false, false, 0, 0, false, 0⟩ =
      { st := .READ_FIFO, tx_buf := 0, str_cmd := 0x0D, str_addr := 0, bus_addr := 0
        bus_dw := 0, bus_w := false, bus_r := false, fifo_re := false
        fifo_entry := 0, fifo_byte_sent := 0, fifo_entry_read_cnt := 0 } :=
  ⟨((cmd_decode_routing _ _ rfl).1 rfl).2.2.2 (by decide) (by decide) (by decide),
   ((cmd_decode_routing _ _ rfl).1 rfl).2.2.1 rfl⟩

/-- C1 counterexample: a burst register write does not terminate when the
auto-incrementing address passes 0x2D.  With the FSM in `REG_WRITE_NEXT`
at address 0x2D (the last valid register), chip-select still asserted and
a further byte received, the next state is `REG_WRITE_STROBE` — not
`IDLE` — and the address advances to 0x2E. -/
theorem burst_write_past_end_cx :
    (fsmStep ⟨.REG_WRITE_NEXT, 0, 0x0A, 0x20, 0x2D, 0, false, false, false, 0, 0, 0⟩
        ⟨false, false, true, 0x55, 0, false, 0⟩).st = .REG_WRITE_STROBE ∧
    (fsmStep ⟨.REG_WRITE_NEXT, 0, 0x0A, 0x20, 0x2D, 0, false, false, false, 0, 0, 0⟩
        ⟨false, false, true, 0x55, 0, false, 0⟩).st ≠ .IDLE ∧
    (fsmStep ⟨.REG_WRITE_NEXT, 0, 0x0A, 0x20, 0x2D, 0, false, false, false, 0, 0, 0⟩
        ⟨false, false, true, 0x55, 0, false, 0⟩).bus_addr = 0x2E := by
  decide

/-- C1 (amended): burst register reads auto-terminate past the last valid
address — in `SHIFT_OUT_DONE`, with chip-select held, the FSM returns to
`IDLE` as soon as the address is no longer below 0x2D (that is, after the
byte at 0x2D has been shifted out), and continues the burst at the next
address otherwise.  Burst register writes, however, do not auto-terminate:
in `REG_WRITE_NEXT` every received byte advances the write to the next
address regardless of how far past 0x2D it is, and only chip-select
deassertion (its rising edge, or the synchronous reset the high level
forces) returns the engine to `IDLE`. -/
theorem burst_boundary (s : Fsm) (i : FsmIn) (hc : i.csn = false) :
    (s.st = .SHIFT_OUT_DONE → i.csn_r = false → ¬ s.bus_addr < 0x2D →
      fsmStep s i = { s with st := .IDLE }) ∧
    (s.st = .SHIFT_OUT_DONE → i.csn_r = false → s.bus_addr < 0x2D →
      fsmStep s i = { s with bus_addr := (s.bus_addr + 1) % 256, bus_r := true
                             st := .LOAD_SHIFT_OUT_DATA }) ∧
    (s.st = .REG_WRITE_NEXT → i.csn_r = false → i.rxc = true →
      fsmStep s i = { s with bus_addr := (s.bus_addr + 1) % 256, bus_dw := i.rxd
                             bus_w := true, st := .REG_WRITE_STROBE }) ∧
    (s.st = .REG_WRITE_NEXT → i.csn_r = true →
      fsmStep s i = { s with st := .IDLE }) := by
  refine ⟨fun h h1 h2 => ?_, fun h h1 h2 => ?_, fun h h1 h2 => ?_, fun h h1 => ?_⟩
  · simp [fsmStep, hc, h, h1, h2]
  · simp [fsmStep, hc, h, h1, h2]
  · simp [fsmStep, hc, h, h1, h2]
  · simp [fsmStep, hc, h, h1]

/-- Witness for `burst_boundary`: a read burst sitting at 0x2D returns to
`IDLE` after its byte is shifted out, while a write burst at 0x2D keeps
going. -/
theorem burst_boundary_witness :
    (fsmStep ⟨.SHIFT_OUT_DONE, 0, 0x0B, 0x20, 0x2D, 0, false, false, false, 0, 0, 0⟩
        ⟨false, false, true, 0, 0, false, 0⟩).st = .IDLE ∧
    (fsmStep ⟨.REG_WRITE_NEXT, 0, 0x0A, 0x20, 0x2D, 0, false, false, false, 0, 0, 0⟩
        ⟨false, false, true, 0x55, 0, false, 0⟩).st = .REG_WRITE_STROBE := by
  constructor
  · rw [(burst_boundary _ _ rfl).1 rfl rfl (by decide)]
  · rw [(burst_boundary _ _ rfl).2.2.1 rfl rfl rfl]

/-- C4: during a FIFO burst read each popped 48-bit entry is shifted out
as exactly 6 sequential bytes from the low 8 bits toward the high 8 bits:
`READ_FIFO_ENTRY` latches the popped word and starts the byte counter at
1; for counter value `k` in 1..6, `PREPARE_SHIFT_BYTE_OUT` loads byte
`k-1` of the entry; each completed byte advances the counter, and at 7 the
FSM returns to `READ_FIFO` for the next entry.  The byte slices invert the
packing, so any injected 16-bit axis triple — in particular
(100, -50, 200) in two's complement — is reconstructed bit-exactly. -/
theorem fifo_byte_order (s : Fsm) (i : FsmIn) (hc : i.csn = false)
    (dx dy dz : Nat) (hx : dx < 65536) (hy : dy < 65536) (hz : dz < 65536) :
    (s.st = .READ_FIFO_ENTRY → fsmStep s i =
       { s with st := .PREPARE_SHIFT_BYTE_OUT, fifo_entry := i.fifo_dout
                fifo_byte_sent := 1
                fifo_entry_read_cnt := (s.fifo_entry_read_cnt + 1) % 256 }) ∧
    (∀ k, s.st = .PREPARE_SHIFT_BYTE_OUT → 1 ≤ k → k ≤ 6 → s.fifo_byte_sent = k →
       (fsmStep s i).st = .SHIFT_BYTE_OUT ∧
       (fsmStep s i).tx_buf = entryByte s.fifo_entry (k - 1)) ∧
    (s.st = .SHIFT_BYTE_OUT → i.rxc = true → fsmStep s i =
       { s with st := .PREPARE_SHIFT_BYTE_OUT
                fifo_byte_sent := (s.fifo_byte_sent + 1) % 8 }) ∧
    (s.st = .PREPARE_SHIFT_BYTE_OUT → s.fifo_byte_sent = 7 →
       fsmStep s i = { s with st := .READ_FIFO, fifo_byte_sent := 0 }) ∧
    (entryByte (pack48 dx dy dz) 0 + 256 * entryByte (pack48 dx dy dz) 1 = dx ∧
     entryByte (pack48 dx dy dz) 2 + 256 * entryByte (pack48 dx dy dz) 3 = dy ∧
     entryByte (pack48 dx dy dz) 4 + 256 * entryByte (pack48 dx dy dz) 5 = dz) ∧
    (fromU16 (entryByte (pack48 (toU16 100) (toU16 (-50)) (toU16 200)) 0 +
        256 * entryByte (pack48 (toU16 100) (toU16 (-50)) (toU16 200)) 1) = 100 ∧
     fromU16 (entryByte (pack48 (toU16 100) (toU16 (-50)) (toU16 200)) 2 +
        256 * entryByte (pack48 (toU16 100) (toU16 (-50)) (toU16 200)) 3) = -50 ∧
     fromU16 (entryByte (pack48 (toU16 100) (toU16 (-50)) (toU16 200)) 4 +
        256 * entryByte (pack48 (toU16 100) (toU16 (-50)) (toU16 200)) 5) = 200) := by
  refine ⟨fun h => ?_, fun k h h1 h2 hk => ?_, fun h h1 => ?_, fun h h1 => ?_,
    ?_, by decide⟩
  · simp [fsmStep, hc, h]
  · interval_cases k <;>
      simp [fsmStep, hc, h, hk, entryByte]
  · simp [fsmStep, hc, h, h1]
  · simp [fsmStep, hc, h, h1]
  · unfold entryByte pack48
    have e0 : 2 ^ (8 * 0) = 1 := by norm_num
    have e1 : 2 ^ (8 * 1) = 256 := by norm_num
    have e2 : 2 ^ (8 * 2) = 65536 := by norm_num
    have e3 : 2 ^ (8 * 3) = 16777216 := by norm_num
    have e4 : 2 ^ (8 * 4) = 4294967296 := by norm_num
    have e5 : 2 ^ (8 * 5) = 1099511627776 := by norm_num
    rw [e0, e1, e2, e3, e4, e5]
    omega

/-- Witness for `fifo_byte_order`: the six bytes of the packed triple
(100, -50, 200) reconstruct the triple exactly. -/
theorem fifo_byte_order_witness :
    fromU16 (entryByte (pack48 (toU16 100) (toU16 (-50)) (toU16 200)) 2 +
       256 * entryByte (pack48 (toU16 100) (toU16 (-50)) (toU16 200)) 3) = -50 :=
  (fifo_byte_order ⟨.IDLE, 0, 0, 0, 0, 0, false, false, false, 0, 0, 0⟩
    ⟨false, false, false, 0, 0, false, 0⟩ rfl 0 0 0
    (by decide) (by decide) (by decide)).2.2.2.2.2.2.1

/-- C7 counterexample: the watermark bit is not set on every tick in which
the buffered-sample count has reached the configured threshold.  With the
threshold `fifo_samples = 0` (host-writable FIFO_SAMPLES set to 0, AH bit
clear) and one buffered entry, the set condition `3*level >= 0` holds, yet
after the tick the bit is clear: the drain condition `3*read_cnt >= 0`
also holds, and its later assignment in the same sync block overrides the
set. -/
theorem watermark_overlap_cx :
    3 * (1 : Nat) ≥ 0 ∧
    (statusStep ⟨false, false, false, false, 0⟩ ⟨1, 0, false⟩).watermark = false := by
  decide

/-- C7 (amended): on any tick in which the drain condition
`3*read_cnt >= fifo_samples` does not hold, the watermark bit is set
whenever the buffered-sample count `3*level` has reached the
`fifo_samples` threshold, and holds its value otherwise; on a tick in
which the drain condition holds the bit is cleared — this clear overrides
a simultaneous set, so the bit assumes a single well-defined value per
tick and never oscillates within one. -/
theorem watermark_set_clear (s : StatusSt) (i : StatusIn) :
    (3 * s.read_cnt ≥ i.fifo_samples → (statusStep s i).watermark = false) ∧
    (3 * s.read_cnt < i.fifo_samples → i.fifo_samples ≤ 3 * i.fifo_level →
       (statusStep s i).watermark = true) ∧
    (3 * s.read_cnt < i.fifo_samples → 3 * i.fifo_level < i.fifo_samples →
       (statusStep s i).watermark = s.watermark) := by
  unfold statusStep
  refine ⟨fun h => ?_, fun h h1 => ?_, fun h h1 => ?_⟩
  · simp [h]
  · simp [h1, Nat.not_le.mpr h, Nat.le_of_lt]
  · simp [Nat.not_le.mpr h, Nat.not_le.mpr h1]

/-- Witness for `watermark_set_clear`: one buffered entry against the
power-on threshold 0x80 with no prior reads leaves the bit untouched,
while 43 buffered entries (129 samples) set it. -/
theorem watermark_set_clear_witness :
    (statusStep ⟨false, false, false, false, 0⟩ ⟨1, 0x80, false⟩).watermark = false ∧
    (statusStep ⟨false, false, false, false, 0⟩ ⟨43, 0x80, false⟩).watermark = true :=
  ⟨(watermark_set_clear ⟨false, false, false, false, 0⟩ ⟨1, 0x80, false⟩).2.2
      (by decide) (by decide),
   (watermark_set_clear ⟨false, false, false, false, 0⟩ ⟨43, 0x80, false⟩).2.1
      (by decide) (by decide)⟩

/-- C8: the 3-bit ODR selector maps to exactly one of six divisor ratios
of the base output frequency — the toggle fires once per `cptOf odr + 1`
prescaler wraps, giving /32, /16, /8, /4, /2 for selectors 0..4 and full
rate for 5..7, which bypass the programmable counter entirely — and while
the enable input is deasserted the output is forced low and the prescaler
and divide counter hold their values. -/
theorem odr_selection (freq : Nat) (s : OdrSt) (odr : Nat) (h8 : odr < 8) :
    (cptOf odr + 1 = if odr = 0 then 32 else if odr = 1 then 16
       else if odr = 2 then 8 else if odr = 3 then 4 else if odr = 4 then 2
       else 1) ∧
    (5 ≤ odr → cptOf odr + 1 = 1) ∧
    cptOf odr + 1 ∈ ([32, 16, 8, 4, 2, 1] : List Nat) ∧
    (s.prescaler = freq / 400 - 1 →
      (5 ≤ odr → odrStep freq s true odr = { s with prescaler := 0, fout := !s.fout }) ∧
      (odr < 5 → s.cnt = cptOf odr →
         odrStep freq s true odr = { prescaler := 0, cnt := 0, fout := !s.fout }) ∧
      (odr < 5 → s.cnt ≠ cptOf odr →
         odrStep freq s true odr = { s with prescaler := 0, cnt := s.cnt + 1 })) ∧
    odrStep freq s false odr = { s with fout := false } := by
  refine ⟨?_, ?_, ?_, fun hp => ⟨fun h5 => ?_, fun h5 hcnt => ?_, fun h5 hcnt => ?_⟩, ?_⟩
  · interval_cases odr <;> rfl
  · intro h5; interval_cases odr <;> rfl
  · interval_cases odr <;> decide
  · simp [odrStep, hp, h5]
  · simp [odrStep, hp, hcnt, Nat.not_le.mpr h5]
  · simp [odrStep, hp, hcnt, Nat.not_le.mpr h5]
  · rfl

/-- Witness for `odr_selection` at selector 3 (divisor 4) with the
prescaler at its wrap value for a 50 MHz clock. -/
theorem odr_selection_witness :
    cptOf 3 + 1 = 4 ∧
    odrStep 50000000 ⟨124999, 3, false⟩ true 3 = ⟨0, 0, true⟩ :=
  ⟨by decide,
   ((odr_selection 50000000 ⟨124999, 3, false⟩ 3 (by decide)).2.2.2.1
      (by decide)).2.1 (by decide) (by decide)⟩

set_option maxRecDepth 20000

/-- C6: in latest-saved (non-stream) mode a sample-load strobe arriving
while the FIFO is full is dropped — the engine stays in `IDLE` and the
FIFO is untouched — whereas in stream mode the push is always attempted
regardless of fullness; injecting capacity+1 = 171 samples from empty in
latest-saved mode leaves the level at the capacity 170, the 171st sample
is not retained, and the overrun STATUS bit (bit 3, `level >= 170`) is
set.  No signal beyond the overrun status bit reports the condition. -/
theorem fifo_overrun_latest_saved (s : FfsmState) (i : FfsmIn) :
    (s.st = .IDLE → i.we_r = true → i.stream = false → s.fifo.writable = false →
      s.fifo_we = false → ffsmStep s i = { s with done := false }) ∧
    (s.st = .IDLE → i.we_r = true → i.stream = true →
      (ffsmStep s i).st = .FIFO_WRITE_STROBE ∧ (ffsmStep s i).fifo_we = true) ∧
    ((injectN ffsmInit false 1 1 1 170).fifo.level = 170 ∧
     (injectSample (injectN ffsmInit false 1 1 1 170) false 2 2 2).fifo.level = 170 ∧
     pack48 2 2 2 ∉ (injectSample (injectN ffsmInit false 1 1 1 170) false 2 2 2).fifo.q ∧
     (statusStep ⟨false, false, false, false, 0⟩
        ⟨(injectSample (injectN ffsmInit false 1 1 1 170) false 2 2 2).fifo.level,
          0x80, false⟩).overrun = true) := by
  refine ⟨fun h h1 h2 h3 h4 => ?_, fun h h1 h2 => ?_, by decide, by decide, ?_, by decide⟩
  · simp [ffsmStep, h, h1, h2, h3, h4]
  · simp [ffsmStep, h, h1, h2]
  · decide

/-- Witness for `fifo_overrun_latest_saved`: with a full FIFO, a
latest-saved strobe only clears the done flag, while a stream-mode strobe
still raises the FIFO write enable. -/
theorem fifo_overrun_latest_saved_witness :
    ffsmStep ⟨.IDLE, true, false, 0, ⟨List.replicate 170 9⟩⟩ ⟨true, false, 5, 5, 5⟩ =
      ⟨.IDLE, false, false, 0, ⟨List.replicate 170 9⟩⟩ ∧
    (ffsmStep ⟨.IDLE, true, false, 0, ⟨List.replicate 170 9⟩⟩
       ⟨true, true, 5, 5, 5⟩).fifo_we = true :=
  ⟨(fifo_overrun_latest_saved ⟨.IDLE, true, false, 0, ⟨List.replicate 170 9⟩⟩
      ⟨true, false, 5, 5, 5⟩).1 rfl rfl rfl (by decide) rfl,
   ((fifo_overrun_latest_saved ⟨.IDLE, true, false, 0, ⟨List.replicate 170 9⟩⟩
      ⟨true, true, 5, 5, 5⟩).2.1 rfl rfl rfl).2⟩

/-- C10: on every rising edge of the host write-enable strobe the `done`
status flag is cleared first; it is set back to 1 only by the
`FIFO_WRITE` state, which is reached only after the write strobe has been
applied to the FIFO; and when the push is skipped (latest-saved mode with
the FIFO not writable) the engine stays in `IDLE` with `done` remaining 0
across all subsequent strobe-free ticks and the FIFO contents unchanged. -/
theorem done_flag_protocol (s : FfsmState) (i : FfsmIn) :
    (s.st = .IDLE → i.we_r = true → (ffsmStep s i).done = false) ∧
    ((ffsmStep s i).done = true → s.done = true ∨ s.st = .FIFO_WRITE) ∧
    (s.st = .FIFO_WRITE_STROBE → ffsmStep s i =
      { s with st := .FIFO_WRITE, fifo_we := false
               fifo := if s.fifo_we then s.fifo.push s.fifo_din else s.fifo }) ∧
    (s.st = .FIFO_WRITE → ffsmStep s i =
      { s with st := .IDLE, done := true
               fifo := if s.fifo_we then s.fifo.push s.fifo_din else s.fifo }) ∧
    (s.st = .IDLE → i.we_r = true → i.stream = false → s.fifo.writable = false →
      s.fifo_we = false → ∀ n,
      ((fun t => ffsmStep t ⟨false, i.stream, i.dx, i.dy, i.dz⟩)^[n]
          (ffsmStep s i)).done = false ∧
      ((fun t => ffsmStep t ⟨false, i.stream, i.dx, i.dy, i.dz⟩)^[n]
          (ffsmStep s i)).fifo = s.fifo) := by
  refine ⟨fun h h1 => ?_, fun h => ?_, fun h => ?_, fun h => ?_, fun h h1 h2 h3 h4 n => ?_⟩
  · unfold ffsmStep
    rw [h, h1]
    by_cases h2 : i.stream = true
    · simp [h2]
    · simp at h2
      by_cases h3 : s.fifo.writable = true <;> simp_all
  · unfold ffsmStep at h
    rcases hst : s.st with _ | _ | _ <;> rw [hst] at h
    · left
      by_cases h1 : i.we_r = true
      · rw [h1] at h
        by_cases h2 : i.stream = true
        · simp [h2] at h
        · simp only [h2] at h
          by_cases h3 : s.fifo.writable = true <;> simp_all
      · simp_all
    · left; simpa using h
    · right; rfl
  · unfold ffsmStep; rw [h]
  · unfold ffsmStep; rw [h]
  · have hskip : ffsmStep s i = { s with done := false } := by
      unfold ffsmStep
      rw [h, h1, h2, h4]
      simp [h3]
    have hfix : ffsmStep { s with done := false }
        ⟨false, i.stream, i.dx, i.dy, i.dz⟩ = { s with done := false } := by
      unfold ffsmStep
      rw [h4]
      simp [h]
    rw [hskip, Function.iterate_fixed hfix n]
    exact ⟨rfl, rfl⟩

/-- Witness for `done_flag_protocol`: after a skipped push on a full FIFO
the done flag is still 0 and the FIFO unchanged 100 quiescent ticks
later. -/
theorem done_flag_protocol_witness :
    ((fun t => ffsmStep t ⟨false, false, 5, 5, 5⟩)^[100]
       (ffsmStep ⟨.IDLE, true, false, 0, ⟨List.replicate 170 9⟩⟩
          ⟨true, false, 5, 5, 5⟩)).done = false ∧
    ((fun t => ffsmStep t ⟨false, false, 5, 5, 5⟩)^[100]
       (ffsmStep ⟨.IDLE, true, false, 0, ⟨List.replicate 170 9⟩⟩
          ⟨true, false, 5, 5, 5⟩)).fifo = ⟨List.replicate 170 9⟩ :=
  (done_flag_protocol ⟨.IDLE, true, false, 0, ⟨List.replicate 170 9⟩⟩
    ⟨true, false, 5, 5, 5⟩).2.2.2.2 rfl rfl rfl (by decide) rfl 100

end Accel
